import Mathlib

/-!
Verification development for a two-file repository:
a flat-file sticky-notes tool (`main.py`) and a thin MCP glue layer over a
PostgreSQL driver (`custom_mcp.py`).

Strings of the source are embedded as `List Char`.  The notes file is a
single text whose line separator is the newline character (the tool itself
only ever writes `LF` line endings); a possibly-absent file is an
`Option (List Char)`.  Python's `str.strip()` is embedded as removal of the
ASCII whitespace characters from both ends, and `file.readlines()` as the
split on newline that keeps each line's terminator.
-/

/-- The ASCII whitespace characters removed by Python's `str.strip()`. -/
def pySpace (c : Char) : Bool :=
  c == ' ' || c == '\t' || c == '\n' || c == '\r' || c == '\x0b' || c == '\x0c'

/-- Removal of trailing whitespace, the right half of `str.strip()`. -/
def rstripP (u : List Char) : List Char :=
  (u.reverse.dropWhile pySpace).reverse

/-- Python's `str.strip()`: whitespace removed from both ends. -/
def pyStrip (u : List Char) : List Char :=
  rstripP (u.dropWhile pySpace)

/-- Python's `file.readlines()`: split at each newline, every line keeping
its terminating newline; a final unterminated line is returned as is. -/
def readlines : List Char → List (List Char)
  | [] => []
  | c :: cs =>
    if c = '\n' then ['\n'] :: readlines cs
    else
      match readlines cs with
      | [] => [[c]]
      | l :: ls => (c :: l) :: ls

/-- The file content seen by an operation after `ensure_notes_file_exists`:
an absent file has just been created empty. -/
def ensure_notes_file_exists (file : Option (List Char)) : List Char :=
  file.getD []

/-- The `add_note` tool: appends the note and a newline; the result is the
returned confirmation string paired with the rewritten file content. -/
def add_note (note : List Char) (file : Option (List Char)) :
    List Char × List Char :=
  let content := ensure_notes_file_exists file
  ("Note added: ".data ++ note, content ++ note ++ ['\n'])

/-- The write loop of `delete_note`: each existing line is written back
unless its stripped content equals the stripped argument. -/
def deleteLoop (note : List Char) : List (List Char) → List Char
  | [] => []
  | l :: ls =>
    (if pyStrip l = pyStrip note then [] else l) ++ deleteLoop note ls

/-- The `delete_note` tool: reads the lines, rewrites the file keeping the
lines whose stripped content differs from the stripped argument, and
returns a confirmation string. -/
def delete_note (note : List Char) (file : Option (List Char)) :
    List Char × List Char :=
  let content := ensure_notes_file_exists file
  ("Note deleted: ".data ++ note, deleteLoop note (readlines content))

/-- The write loop of `modify_note`: each line whose stripped content equals
the stripped old note is replaced by the new note plus a newline. -/
def modifyLoop (oldNote newNote : List Char) : List (List Char) → List Char
  | [] => []
  | l :: ls =>
    (if pyStrip l = pyStrip oldNote then newNote ++ ['\n'] else l) ++
      modifyLoop oldNote newNote ls

/-- The `modify_note` tool. -/
def modify_note (oldNote newNote : List Char) (file : Option (List Char)) :
    List Char × List Char :=
  let content := ensure_notes_file_exists file
  ("Note modified from \x27".data ++ oldNote ++ "\x27 to \x27".data ++
      newNote ++ "\x27".data,
    modifyLoop oldNote newNote (readlines content))

/-- The `read_notes` tool: returns the stripped file content, or the
sentinel when that is empty (`notes or "No notes found."`); the file itself
is unchanged. -/
def read_notes (file : Option (List Char)) : List Char × List Char :=
  let content := ensure_notes_file_exists file
  let notes := pyStrip content
  ((if notes = [] then "No notes found.".data else notes), content)

/-- The `note_summary_prompt` prompt: a fixed message when the stripped
content is empty, otherwise a template around the stripped content
(`"".join` of a Python string is the string itself). -/
def note_summary_prompt (file : Option (List Char)) :
    List Char × List Char :=
  let content := ensure_notes_file_exists file
  let notes := pyStrip content
  ((if notes = [] then "No notes found. Please add some notes first.".data
    else "Here are your notes:\n".data ++ notes ++
      "\n\nPlease summarize these notes.".data), content)

/-- One string occurs inside another as a contiguous run. -/
def occursIn (u v : List Char) : Prop := ∃ a b, v = a ++ u ++ b

/-- A value produced as one element of `readlines`: nonempty, and a newline
can only be its final character. -/
def IsLine (l : List Char) : Prop :=
  l ≠ [] ∧ ∀ c ∈ l.dropLast, c ≠ '\n'

/-- The shape invariant of a `readlines` result: every element is a line,
and every element but the last ends with a newline. -/
def LinesOK (ls : List (List Char)) : Prop :=
  (∀ l ∈ ls, IsLine l) ∧ ∀ l ∈ ls.dropLast, l.getLast? = some '\n'

theorem readlines_cons (c : Char) (cs : List Char) :
    readlines (c :: cs) =
      if c = '\n' then ['\n'] :: readlines cs
      else
        match readlines cs with
        | [] => [[c]]
        | l :: ls => (c :: l) :: ls := rfl

theorem getLast?_cons_ne_nil {α : Type} (c : α) (l : List α) (h : l ≠ []) :
    (c :: l).getLast? = l.getLast? := by
  cases l with
  | nil => exact absurd rfl h
  | cons x xs => simp [List.getLast?_cons_cons]

theorem getLast?_decomp {α : Type} :
    ∀ (l : List α) (a : α), l.getLast? = some a → l = l.dropLast ++ [a]
  | [], a, h => by simp at h
  | [x], a, h => by simp_all
  | x :: y :: t, a, h => by
    rw [List.getLast?_cons_cons] at h
    have ih := getLast?_decomp (y :: t) a h
    simpa using ih

theorem readlines_newline_chunk :
    ∀ (m rest : List Char), '\n' ∉ m →
      readlines (m ++ '\n' :: rest) = (m ++ ['\n']) :: readlines rest
  | [], rest, _ => by simp [readlines]
  | c :: m, rest, h => by
    have hc : c ≠ '\n' := fun hc => h (hc ▸ List.mem_cons_self c m)
    have ih := readlines_newline_chunk m rest (fun hm => h (List.mem_cons_of_mem c hm))
    rw [List.cons_append, readlines_cons, if_neg hc, ih]
    simp

theorem readlines_no_newline :
    ∀ (l : List Char), l ≠ [] → '\n' ∉ l → readlines l = [l]
  | [], h, _ => absurd rfl h
  | c :: cs, _, h => by
    have hc : c ≠ '\n' := fun hc => h (hc ▸ List.mem_cons_self c cs)
    cases cs with
    | nil => rw [readlines_cons, if_neg hc]; rfl
    | cons d ds =>
      have ih := readlines_no_newline (d :: ds) (by simp)
        (fun hm => h (List.mem_cons_of_mem c hm))
      rw [readlines_cons, if_neg hc, ih]

theorem linesOK_readlines : ∀ s : List Char, LinesOK (readlines s)
  | [] => ⟨by simp [readlines], by simp [readlines]⟩
  | c :: cs => by
    obtain ⟨ih1, ih2⟩ := linesOK_readlines cs
    by_cases hc : c = '\n'
    · subst hc
      rw [readlines_cons, if_pos rfl]
      refine ⟨?_, ?_⟩
      · intro l hl
        rcases List.mem_cons.1 hl with rfl | hl
        · exact ⟨by simp, by simp⟩
        · exact ih1 l hl
      · intro l hl
        cases hR : readlines cs with
        | nil => rw [hR] at hl; simp at hl
        | cons r rs =>
          rw [hR, List.dropLast_cons_of_ne_nil (by simp)] at hl
          rcases List.mem_cons.1 hl with rfl | hl
          · simp
          · exact ih2 l (by rw [hR]; exact hl)
    · rw [readlines_cons, if_neg hc]
      cases hR : readlines cs with
      | nil =>
        refine ⟨?_, by simp⟩
        intro l hl
        rcases List.mem_cons.1 hl with rfl | hl
        · exact ⟨by simp, by simp⟩
        · simp at hl
      | cons r rs =>
        rw [hR] at ih1 ih2
        have hrne : r ≠ [] := (ih1 r (List.mem_cons_self r rs)).1
        refine ⟨?_, ?_⟩
        · intro l hl
          rcases List.mem_cons.1 hl with rfl | hl
          · refine ⟨by simp, ?_⟩
            intro ch hch
            rw [List.dropLast_cons_of_ne_nil hrne] at hch
            rcases List.mem_cons.1 hch with rfl | hch
            · exact hc
            · exact (ih1 r (List.mem_cons_self r rs)).2 ch hch
          · exact ih1 l (List.mem_cons_of_mem r hl)
        · intro l hl
          cases rs with
          | nil => simp at hl
          | cons y ys =>
            rw [List.dropLast_cons_of_ne_nil (by simp)] at hl
            rcases List.mem_cons.1 hl with rfl | hl
            · have hr : r.getLast? = some '\n' := by
                apply ih2 r
                rw [List.dropLast_cons_of_ne_nil (by simp)]
                exact List.mem_cons_self r _
              rw [getLast?_cons_ne_nil c r hrne]
              exact hr
            · apply ih2 l
              rw [List.dropLast_cons_of_ne_nil (by simp)]
              exact List.mem_cons_of_mem r hl

theorem readlines_flatten :
    ∀ ls : List (List Char), LinesOK ls → readlines ls.flatten = ls
  | [], _ => by simp [readlines]
  | l :: ls, ⟨h1, h2⟩ => by
    have hl : IsLine l := h1 l (List.mem_cons_self l ls)
    cases ls with
    | nil =>
      simp only [List.flatten_cons, List.flatten_nil, List.append_nil]
      by_cases hn : '\n' ∈ l
      · have hlast : l.getLast? = some '\n' := by
          cases hg : l.getLast? with
          | none => rw [List.getLast?_eq_none_iff] at hg; exact absurd hg hl.1
          | some a =>
            have hdecomp := getLast?_decomp l a hg
            by_cases ha : a = '\n'
            · rw [ha]
            · exfalso
              have : '\n' ∈ l.dropLast := by
                rcases List.mem_append.1 (hdecomp ▸ hn) with h | h
                · exact h
                · simp at h; exact absurd h.symm ha
              exact hl.2 '\n' this rfl
        have hdecomp := getLast?_decomp l '\n' hlast
        have hnotin : '\n' ∉ l.dropLast := fun hm => hl.2 '\n' hm rfl
        calc readlines l = readlines (l.dropLast ++ '\n' :: []) := by
              rw [← hdecomp]
          _ = (l.dropLast ++ ['\n']) :: readlines [] :=
              readlines_newline_chunk l.dropLast [] hnotin
          _ = [l] := by rw [← hdecomp]; rfl
      · exact readlines_no_newline l hl.1 hn
    | cons y ys =>
      have hlast : l.getLast? = some '\n' := by
        apply h2 l
        rw [List.dropLast_cons_of_ne_nil (by simp)]
        exact List.mem_cons_self l _
      have hdecomp := getLast?_decomp l '\n' hlast
      have hnotin : '\n' ∉ l.dropLast := fun hm => hl.2 '\n' hm rfl
      have hOK : LinesOK (y :: ys) := by
        refine ⟨fun x hx => h1 x (List.mem_cons_of_mem l hx), fun x hx => ?_⟩
        apply h2 x
        rw [List.dropLast_cons_of_ne_nil (by simp)]
        exact List.mem_cons_of_mem l hx
      have ih := readlines_flatten (y :: ys) hOK
      calc readlines (l :: y :: ys).flatten
          = readlines (l.dropLast ++ '\n' :: (y :: ys).flatten) := by
            rw [List.flatten_cons]
            conv_lhs => rw [hdecomp]
            simp
        _ = (l.dropLast ++ ['\n']) :: readlines (y :: ys).flatten :=
            readlines_newline_chunk l.dropLast _ hnotin
        _ = l :: y :: ys := by rw [← hdecomp, ih]

theorem readlines_cons_ne_nil (c : Char) (cs : List Char) :
    readlines (c :: cs) ≠ [] := by
  rw [readlines_cons]
  by_cases hc : c = '\n'
  · simp [hc]
  · rw [if_neg hc]
    cases readlines cs <;> simp

theorem readlines_eq_nil_imp {cs : List Char} (h : readlines cs = []) :
    cs = [] := by
  cases cs with
  | nil => rfl
  | cons c t => exact absurd h (readlines_cons_ne_nil c t)

theorem flatten_readlines : ∀ s : List Char, (readlines s).flatten = s
  | [] => rfl
  | c :: cs => by
    have ih := flatten_readlines cs
    rw [readlines_cons]
    by_cases hc : c = '\n'
    · simp [hc, ih]
    · rw [if_neg hc]
      cases hR : readlines cs with
      | nil =>
        have : cs = [] := readlines_eq_nil_imp hR
        subst this; rfl
      | cons l ls =>
        rw [hR] at ih
        simpa using ih

theorem linesOK_tail {x : List Char} {ls : List (List Char)}
    (h : LinesOK (x :: ls)) : LinesOK ls := by
  refine ⟨fun l hl => h.1 l (List.mem_cons_of_mem x hl), fun l hl => ?_⟩
  cases ls with
  | nil => simp at hl
  | cons y ys =>
    apply h.2 l
    rw [List.dropLast_cons_of_ne_nil (by simp)]
    exact List.mem_cons_of_mem x hl

theorem dropLast_filter_getLast (p : List Char → Bool) :
    ∀ ls : List (List Char), LinesOK ls →
      ∀ l ∈ (ls.filter p).dropLast, l.getLast? = some '\n'
  | [], _, l, hl => by simp at hl
  | x :: ls, h, l, hl => by
    by_cases hp : p x
    · rw [List.filter_cons_of_pos hp] at hl
      cases hF : ls.filter p with
      | nil => rw [hF] at hl; simp at hl
      | cons y ys =>
        rw [hF, List.dropLast_cons_of_ne_nil (by simp)] at hl
        rcases List.mem_cons.1 hl with rfl | hl2
        · have hlsne : ls ≠ [] := by rintro rfl; simp at hF
          apply h.2 l
          rw [List.dropLast_cons_of_ne_nil hlsne]
          exact List.mem_cons_self l ls.dropLast
        · exact dropLast_filter_getLast p ls (linesOK_tail h) l (by rw [hF]; exact hl2)
    · rw [List.filter_cons_of_neg hp] at hl
      exact dropLast_filter_getLast p ls (linesOK_tail h) l hl

theorem linesOK_filter (p : List Char → Bool) (ls : List (List Char))
    (h : LinesOK ls) : LinesOK (ls.filter p) :=
  ⟨fun l hl => h.1 l (List.mem_filter.1 hl).1, dropLast_filter_getLast p ls h⟩

theorem dropLast_map (f : List Char → List Char) :
    ∀ ls : List (List Char), (ls.map f).dropLast = ls.dropLast.map f
  | [] => rfl
  | [_] => rfl
  | x :: y :: t => by
    have ih := dropLast_map f (y :: t)
    simp only [List.map_cons] at ih ⊢
    rw [List.dropLast_cons_of_ne_nil (show (f y :: t.map f) ≠ [] by simp),
      List.dropLast_cons_of_ne_nil (show (y :: t) ≠ [] by simp),
      List.map_cons]
    exact congrArg (f x :: ·) ih

theorem linesOK_map_modify (oldNote newNote : List Char)
    (hn : '\n' ∉ newNote) (ls : List (List Char)) (h : LinesOK ls) :
    LinesOK (ls.map fun l =>
      if pyStrip l = pyStrip oldNote then newNote ++ ['\n'] else l) := by
  constructor
  · intro l hl
    obtain ⟨x, hx, rfl⟩ := List.mem_map.1 hl
    by_cases hcond : pyStrip x = pyStrip oldNote
    · rw [if_pos hcond]
      refine ⟨by simp, ?_⟩
      intro c hc
      rw [List.dropLast_concat] at hc
      exact fun hcn => hn (hcn ▸ hc)
    · rw [if_neg hcond]
      exact h.1 x hx
  · intro l hl
    rw [dropLast_map] at hl
    obtain ⟨x, hx, rfl⟩ := List.mem_map.1 hl
    by_cases hcond : pyStrip x = pyStrip oldNote
    · rw [if_pos hcond]
      exact List.getLast?_concat _
    · rw [if_neg hcond]
      exact h.2 x hx

theorem deleteLoop_eq (note : List Char) :
    ∀ ls : List (List Char),
      deleteLoop note ls =
        (ls.filter fun l => decide (pyStrip l ≠ pyStrip note)).flatten
  | [] => rfl
  | l :: ls => by
    have ih := deleteLoop_eq note ls
    by_cases hcond : pyStrip l = pyStrip note
    · rw [List.filter_cons_of_neg (by simp [hcond])]
      simpa [deleteLoop, hcond] using ih
    · rw [List.filter_cons_of_pos (by simp [hcond])]
      simpa [deleteLoop, hcond] using congrArg (l ++ ·) ih

theorem modifyLoop_eq (oldNote newNote : List Char) :
    ∀ ls : List (List Char),
      modifyLoop oldNote newNote ls =
        (ls.map fun l =>
          if pyStrip l = pyStrip oldNote then newNote ++ ['\n'] else l).flatten
  | [] => rfl
  | l :: ls => by
    have ih := modifyLoop_eq oldNote newNote ls
    simp only [modifyLoop, List.map_cons, List.flatten_cons, ih]

theorem delete_note_lines (note : List Char) (file : Option (List Char)) :
    readlines (delete_note note file).2 =
      (readlines (ensure_notes_file_exists file)).filter
        (fun l => decide (pyStrip l ≠ pyStrip note)) := by
  show readlines (deleteLoop note (readlines (ensure_notes_file_exists file))) = _
  rw [deleteLoop_eq]
  exact readlines_flatten _ (linesOK_filter _ _ (linesOK_readlines _))

theorem modify_note_lines (oldNote newNote : List Char)
    (file : Option (List Char)) (hn : '\n' ∉ newNote) :
    readlines (modify_note oldNote newNote file).2 =
      (readlines (ensure_notes_file_exists file)).map
        (fun l => if pyStrip l = pyStrip oldNote then newNote ++ ['\n'] else l) := by
  show readlines
    (modifyLoop oldNote newNote (readlines (ensure_notes_file_exists file))) = _
  rw [modifyLoop_eq]
  exact readlines_flatten _
    (linesOK_map_modify oldNote newNote hn _ (linesOK_readlines _))

theorem occursIn_trans {u v w : List Char} (h1 : occursIn u v)
    (h2 : occursIn v w) : occursIn u w := by
  obtain ⟨a, b, rfl⟩ := h1
  obtain ⟨c, d, rfl⟩ := h2
  exact ⟨c ++ a, b ++ d, by simp⟩

theorem mem_of_occursIn {u v : List Char} {c : Char} (h : occursIn u v)
    (hc : c ∈ u) : c ∈ v := by
  obtain ⟨a, b, rfl⟩ := h
  simp [hc]

theorem occursIn_length_le {u v : List Char} (h : occursIn u v) :
    u.length ≤ v.length := by
  obtain ⟨a, b, rfl⟩ := h
  simp; omega

theorem occursIn_reverse {u v : List Char} (h : occursIn u v) :
    occursIn u.reverse v.reverse := by
  obtain ⟨a, b, rfl⟩ := h
  exact ⟨b.reverse, a.reverse, by simp⟩

theorem mem_flatten_occursIn {l : List Char} :
    ∀ {L : List (List Char)}, l ∈ L → occursIn l L.flatten := by
  intro L
  induction L with
  | nil => intro h; simp at h
  | cons x L ih =>
    intro h
    rcases List.mem_cons.1 h with rfl | h
    · exact ⟨[], L.flatten, by simp⟩
    · obtain ⟨a, b, hab⟩ := ih h
      exact ⟨x ++ a, b, by simp [hab]⟩

theorem line_occursIn_content {l s : List Char} (h : l ∈ readlines s) :
    occursIn l s := flatten_readlines s ▸ mem_flatten_occursIn h

theorem dropWhile_self_occursIn (p : Char → Bool) (u : List Char) :
    occursIn (u.dropWhile p) u :=
  ⟨u.takeWhile p, [], by simp [List.takeWhile_append_dropWhile]⟩

theorem rstripP_decomp (u : List Char) :
    u = rstripP u ++ (u.reverse.takeWhile pySpace).reverse := by
  conv_lhs => rw [← u.reverse_reverse,
    ← List.takeWhile_append_dropWhile pySpace u.reverse]
  rw [List.reverse_append]
  rfl

theorem pyStrip_occursIn_self (u : List Char) : occursIn (pyStrip u) u :=
  occursIn_trans
    ⟨[], (((u.dropWhile pySpace).reverse.takeWhile pySpace)).reverse,
      by simpa using rstripP_decomp (u.dropWhile pySpace)⟩
    (dropWhile_self_occursIn pySpace u)

theorem dropWhile_head_false (p : Char → Bool) :
    ∀ (l : List Char) (h : Char) (t : List Char),
      l.dropWhile p = h :: t → p h = false
  | [], h, t => by simp
  | c :: cs, h, t => by
    intro heq
    rw [List.dropWhile_cons] at heq
    by_cases hc : p c
    · rw [if_pos hc] at heq
      exact dropWhile_head_false p cs h t heq
    · rw [if_neg hc] at heq
      cases heq
      exact Bool.not_eq_true _ ▸ (by simpa using hc)

theorem occursIn_dropWhile_chunks (p : Char → Bool) (h : Char)
    (t : List Char) (hh : p h = false) :
    ∀ (a b : List Char),
      occursIn (h :: t) (List.dropWhile p (a ++ (h :: t) ++ b))
  | [], b => by
    have he : List.dropWhile p ([] ++ (h :: t) ++ b) = h :: (t ++ b) := by
      simp [List.dropWhile_cons, hh]
    rw [he]
    exact ⟨[], b, by simp⟩
  | c :: a, b => by
    by_cases hc : p c
    · have he : List.dropWhile p ((c :: a) ++ (h :: t) ++ b) =
          List.dropWhile p (a ++ (h :: t) ++ b) := by
        simp [List.dropWhile_cons, hc]
      rw [he]
      exact occursIn_dropWhile_chunks p h t hh a b
    · have he : List.dropWhile p ((c :: a) ++ (h :: t) ++ b) =
          (c :: a) ++ (h :: t) ++ b := by
        simp [List.dropWhile_cons, hc]
      rw [he]
      exact ⟨c :: a, b, rfl⟩

theorem occursIn_dropWhile (p : Char → Bool) {h : Char} {t v : List Char}
    (hh : p h = false) (hv : occursIn (h :: t) v) :
    occursIn (h :: t) (List.dropWhile p v) := by
  obtain ⟨a, b, rfl⟩ := hv
  exact occursIn_dropWhile_chunks p h t hh a b

theorem pyStrip_occursIn {u v : List Char} (huv : occursIn u v) :
    occursIn (pyStrip u) (pyStrip v) := by
  cases hW : pyStrip u with
  | nil => exact ⟨[], pyStrip v, by simp⟩
  | cons h t =>
    have hw_in_u : occursIn (h :: t) u := hW ▸ pyStrip_occursIn_self u
    have hw_in_v : occursIn (h :: t) v := occursIn_trans hw_in_u huv
    have hhead : pySpace h = false := by
      have hx := rstripP_decomp (u.dropWhile pySpace)
      rw [show rstripP (u.dropWhile pySpace) = pyStrip u from rfl, hW,
        List.cons_append] at hx
      exact dropWhile_head_false pySpace u h _ hx
    have hrevs : (pyStrip u).reverse =
        (u.dropWhile pySpace).reverse.dropWhile pySpace := by
      show (rstripP (u.dropWhile pySpace)).reverse = _
      rw [rstripP, List.reverse_reverse]
    cases hrev : (h :: t).reverse with
    | nil => exact absurd (congrArg List.length hrev) (by simp)
    | cons h2 t2 =>
      have hh2 : pySpace h2 = false := by
        apply dropWhile_head_false pySpace (u.dropWhile pySpace).reverse h2 t2
        rw [← hrevs, hW, hrev]
      have step1 : occursIn (h :: t) (v.dropWhile pySpace) :=
        occursIn_dropWhile pySpace hhead hw_in_v
      have step2 : occursIn (h2 :: t2) ((v.dropWhile pySpace).reverse) := by
        rw [← hrev]
        exact occursIn_reverse step1
      have step3 : occursIn (h2 :: t2)
          (((v.dropWhile pySpace).reverse).dropWhile pySpace) :=
        occursIn_dropWhile pySpace hh2 step2
      have step4 := occursIn_reverse step3
      rw [← hrev, List.reverse_reverse] at step4
      exact step4

/-- C1: for every initial file state and every note string, `delete_note`
rewrites the notes file keeping exactly those existing lines whose stripped
content does not equal the stripped argument — so it removes all matching
lines, not just the first — and it returns the confirmation string whether
or not any line matched. -/
theorem claim_C1_delete_note_filters (note : List Char)
    (file : Option (List Char)) :
    (delete_note note file).1 = "Note deleted: ".data ++ note ∧
    (delete_note note file).2 =
      ((readlines (ensure_notes_file_exists file)).filter
        (fun l => decide (pyStrip l ≠ pyStrip note))).flatten ∧
    readlines (delete_note note file).2 =
      (readlines (ensure_notes_file_exists file)).filter
        (fun l => decide (pyStrip l ≠ pyStrip note)) :=
  ⟨rfl, deleteLoop_eq note _, delete_note_lines note file⟩

/-- C2: `modify_note` returns its confirmation string for every input, the
rewritten file is the concatenation of the original lines with every line
whose stripped content equals the stripped old note replaced by the new
note plus a newline, and — whenever the new note contains no newline — the
resulting file's lines are exactly that per-line replacement, all other
lines unchanged and in their original positions. -/
theorem claim_C2_modify_note_rewrites (oldNote newNote : List Char)
    (file : Option (List Char)) :
    (modify_note oldNote newNote file).1 =
      "Note modified from \x27".data ++ oldNote ++ "\x27 to \x27".data ++
        newNote ++ "\x27".data ∧
    (modify_note oldNote newNote file).2 =
      ((readlines (ensure_notes_file_exists file)).map
        (fun l => if pyStrip l = pyStrip oldNote then newNote ++ ['\n']
          else l)).flatten ∧
    ('\n' ∉ newNote →
      readlines (modify_note oldNote newNote file).2 =
        (readlines (ensure_notes_file_exists file)).map
          (fun l => if pyStrip l = pyStrip oldNote then newNote ++ ['\n']
            else l)) :=
  ⟨rfl, modifyLoop_eq oldNote newNote _,
    fun hn => modify_note_lines oldNote newNote file hn⟩

theorem claim_C2_witness :
    readlines (modify_note "Buy milk".data "Buy bread".data
        (some "Buy milk\nx\nBuy milk\n".data)).2 =
      ["Buy bread\n".data, "x\n".data, "Buy bread\n".data] := by
  rw [(claim_C2_modify_note_rewrites "Buy milk".data "Buy bread".data
    (some "Buy milk\nx\nBuy milk\n".data)).2.2 (by decide)]
  decide

/-- C3 counterexample: after `add_note "Buy milk"` on an empty store the
file holds "Buy milk\n", but `read_notes` returns the stripped content
"Buy milk" — not the full file content, and not anything containing
"Buy milk\n". -/
theorem claim_C3_counterexample :
    (read_notes (some ((add_note "Buy milk".data (some [])).2))).1 =
      "Buy milk".data ∧
    (read_notes (some ((add_note "Buy milk".data (some [])).2))).1 ≠
      (add_note "Buy milk".data (some [])).2 ∧
    ¬ occursIn "Buy milk\n".data
        (read_notes (some ((add_note "Buy milk".data (some [])).2))).1 := by
  refine ⟨by decide, by decide, fun h => ?_⟩
  have hlen := occursIn_length_le h
  revert hlen
  decide

/-- C3 (amended): `read_notes` returns the file content stripped of leading
and trailing whitespace, or the fixed sentinel "No notes found." when the
stripped content is empty; after `add_note "Buy milk"` on an empty store
the file holds exactly "Buy milk\n" and reading returns exactly
"Buy milk". -/
theorem claim_C3_read_notes_amended (file : Option (List Char)) :
    (read_notes file).1 =
      (if pyStrip (ensure_notes_file_exists file) = []
        then "No notes found.".data
        else pyStrip (ensure_notes_file_exists file)) ∧
    (add_note "Buy milk".data (some [])).2 = "Buy milk\n".data ∧
    (read_notes (some ((add_note "Buy milk".data (some [])).2))).1 =
      "Buy milk".data :=
  ⟨rfl, by decide, by decide⟩

/-- C7 counterexample: after `add_note " "` on an empty store the store is
non-empty, yet `note_summary_prompt` returns the fixed no-notes string,
which does not embed the store's single line. -/
theorem claim_C7_counterexample :
    (add_note " ".data (some [])).2 ≠ [] ∧
    (note_summary_prompt (some ((add_note " ".data (some [])).2))).1 =
      "No notes found. Please add some notes first.".data ∧
    ¬ occursIn ((add_note " ".data (some [])).2)
        (note_summary_prompt (some ((add_note " ".data (some [])).2))).1 := by
  refine ⟨by decide, by decide, fun h => ?_⟩
  have hmem := mem_of_occursIn h
    (show '\n' ∈ (add_note " ".data (some [])).2 by decide)
  revert hmem
  decide

/-- C7 (amended): when the store content strips to empty — the empty store,
but also a non-empty whitespace-only store — the prompt is the exact fixed
no-notes string; otherwise it is the fixed template around the stripped
content, inside which the stripped content of every current note line
occurs verbatim. -/
theorem claim_C7_note_summary_amended (file : Option (List Char)) :
    (pyStrip (ensure_notes_file_exists file) = [] →
      (note_summary_prompt file).1 =
        "No notes found. Please add some notes first.".data) ∧
    (pyStrip (ensure_notes_file_exists file) ≠ [] →
      (note_summary_prompt file).1 =
        "Here are your notes:\n".data ++
          pyStrip (ensure_notes_file_exists file) ++
          "\n\nPlease summarize these notes.".data ∧
      ∀ l ∈ readlines (ensure_notes_file_exists file),
        occursIn (pyStrip l) (note_summary_prompt file).1) := by
  constructor
  · intro h
    show (if pyStrip (ensure_notes_file_exists file) = [] then _ else _) = _
    rw [if_pos h]
  · intro h
    have h2 : (note_summary_prompt file).1 =
        "Here are your notes:\n".data ++
          pyStrip (ensure_notes_file_exists file) ++
          "\n\nPlease summarize these notes.".data := by
      show (if pyStrip (ensure_notes_file_exists file) = [] then _ else _) = _
      rw [if_neg h]
    refine ⟨h2, fun l hl => ?_⟩
    have h1 : occursIn (pyStrip l) (pyStrip (ensure_notes_file_exists file)) :=
      pyStrip_occursIn (line_occursIn_content hl)
    rw [h2]
    obtain ⟨a, b, hab⟩ := h1
    exact ⟨"Here are your notes:\n".data ++ a,
      b ++ "\n\nPlease summarize these notes.".data, by rw [hab]; simp⟩

theorem claim_C7_witness :
    (note_summary_prompt (none : Option (List Char))).1 =
      "No notes found. Please add some notes first.".data ∧
    (note_summary_prompt (some "a\nbb  cc\n".data)).1 =
      "Here are your notes:\na\nbb  cc\n\nPlease summarize these notes.".data ∧
    occursIn "bb  cc".data
      (note_summary_prompt (some "a\nbb  cc\n".data)).1 := by
  refine ⟨(claim_C7_note_summary_amended none).1 (by decide), ?_, ?_⟩
  · rw [((claim_C7_note_summary_amended (some "a\nbb  cc\n".data)).2
      (by decide)).1]
    decide
  · have h := ((claim_C7_note_summary_amended (some "a\nbb  cc\n".data)).2
      (by decide)).2 "bb  cc\n".data (by decide)
    have e : pyStrip "bb  cc\n".data = "bb  cc".data := by decide
    rw [e] at h
    exact h

/-- C9: `delete_note` is idempotent on the file state — applying it twice
with the same argument leaves the notes file exactly as one application
does. -/
theorem claim_C9_delete_idempotent (note : List Char)
    (file : Option (List Char)) :
    (delete_note note (some (delete_note note file).2)).2 =
      (delete_note note file).2 := by
  show deleteLoop note (readlines (delete_note note file).2) =
    (delete_note note file).2
  rw [delete_note_lines, deleteLoop_eq, List.filter_filter]
  show _ = deleteLoop note (readlines (ensure_notes_file_exists file))
  rw [deleteLoop_eq]
  congr 1
  apply List.filter_congr
  intro l _
  rw [Bool.and_self]

/-- C10: when the argument strips to the empty string, `delete_note`
removes exactly the blank and whitespace-only lines of the file, keeping
every line with any non-whitespace content. -/
theorem claim_C10_delete_blank (note : List Char)
    (file : Option (List Char)) (h : pyStrip note = []) :
    readlines (delete_note note file).2 =
      (readlines (ensure_notes_file_exists file)).filter
        (fun l => decide (pyStrip l ≠ [])) := by
  rw [delete_note_lines]
  apply List.filter_congr
  intro l _
  rw [h]

theorem claim_C10_witness :
    pyStrip "  ".data = [] ∧
    readlines (delete_note "  ".data (some "a\n\n \nb\n".data)).2 =
      (readlines "a\n\n \nb\n".data).filter
        (fun l => decide (pyStrip l ≠ [])) :=
  ⟨by decide, claim_C10_delete_blank "  ".data (some "a\n\n \nb\n".data)
    (by decide)⟩

/-! Database glue (`custom_mcp.py`).  The asyncpg driver is an external
collaborator: it is embedded as an oracle whose `fetch`/`exec` either
return a result or fail with a message, and a row is a dictionary from
column name to a textual value.  Python dictionaries preserve insertion
order, so each handler's returned dictionary is an ordered association
list from key to a tagged value. -/

/-- A row returned by the driver: an ordered dictionary from column name
to textual value. -/
abbrev Row := List (List Char × List Char)

/-- A value appearing in a handler's returned dictionary or passed as a
bound query parameter. -/
inductive DVal where
  | bool (x : Bool)
  | nat (x : Nat)
  | int (x : Int)
  | str (x : List Char)
  | rows (x : List Row)
  | strs (x : List (List Char))
deriving DecidableEq

/-- The external asyncpg connection: `fetch` runs a query with bound
parameters and returns rows or fails; `exec` runs a command and returns a
status string or fails.  Failure carries the text of the driver
exception. -/
structure DriverConn where
  fetch : List Char → List DVal → Except (List Char) (List Row)
  exec : List Char → Except (List Char) (List Char)

/-- The `SupabaseDatabase` connection manager: it owns at most one
connection handle. -/
structure SupabaseDatabase where
  connection : Option DriverConn

/-- `SupabaseDatabase.execute_query`: raises "Database not connected" when
there is no handle, otherwise delegates to the driver and wraps a driver
failure in a "Query execution failed: " RuntimeError message. -/
def SupabaseDatabase.execute_query (db : SupabaseDatabase) (query : List Char)
    (args : List DVal) : Except (List Char) (List Row) :=
  match db.connection with
  | none => .error "Database not connected".data
  | some conn =>
    match conn.fetch query args with
    | .ok rows => .ok rows
    | .error e => .error ("Query execution failed: ".data ++ e)

/-- `SupabaseDatabase.execute_command`: same shape with "Command execution
failed: ". -/
def SupabaseDatabase.execute_command (db : SupabaseDatabase)
    (command : List Char) : Except (List Char) (List Char) :=
  match db.connection with
  | none => .error "Database not connected".data
  | some conn =>
    match conn.exec command with
    | .ok r => .ok r
    | .error e => .error ("Command execution failed: ".data ++ e)

/-- The catalog query text of `SupabaseDatabase.get_table_schema`,
transcribed exactly from the triple-quoted source string. -/
def schemaQuery : List Char :=
  "\n        SELECT column_name, data_type, is_nullable, column_default\n        FROM information_schema.columns\n        WHERE table_name = $1\n        ORDER BY ordinal_position;\n        ".data

/-- The catalog query text of `SupabaseDatabase.list_tables`, transcribed
exactly from the triple-quoted source string. -/
def listTablesQuery : List Char :=
  "\n        SELECT table_name\n        FROM information_schema.tables\n        WHERE table_schema = \x27public\x27\n        AND table_type = \x27BASE TABLE\x27\n        ORDER BY table_name;\n        ".data

/-- `SupabaseDatabase.get_table_schema`: runs the catalog query with the
table name as the bound parameter. -/
def SupabaseDatabase.get_table_schema (db : SupabaseDatabase)
    (table_name : List Char) : Except (List Char) (List Row) :=
  db.execute_query schemaQuery [DVal.str table_name]

/-- The comprehension `[row[\x27table_name\x27] for row in rows]`: a missing
key raises a KeyError whose text is the quoted key. -/
def tableNamesOfRows : List Row → Except (List Char) (List (List Char))
  | [] => .ok []
  | r :: rs =>
    match r.lookup "table_name".data with
    | none => .error "\x27table_name\x27".data
    | some v =>
      match tableNamesOfRows rs with
      | .ok vs => .ok (v :: vs)
      | .error e => .error e

/-- `SupabaseDatabase.list_tables`: runs the catalog query and projects the
`table_name` column of each row. -/
def SupabaseDatabase.list_tables (db : SupabaseDatabase) :
    Except (List Char) (List (List Char)) :=
  match db.execute_query listTablesQuery [] with
  | .error e => .error e
  | .ok rows => tableNamesOfRows rows

/-- The `execute_query` tool handler: the try/except boundary turning the
outcome into a success or failure dictionary. -/
def execute_query (db : SupabaseDatabase) (query : List Char) :
    List (List Char × DVal) :=
  match db.execute_query query [] with
  | .ok results =>
    [("success".data, DVal.bool true),
     ("row_count".data, DVal.nat results.length),
     ("data".data, DVal.rows results)]
  | .error e =>
    [("success".data, DVal.bool false), ("error".data, DVal.str e)]

/-- The `execute_command` tool handler. -/
def execute_command (db : SupabaseDatabase) (command : List Char) :
    List (List Char × DVal) :=
  match db.execute_command command with
  | .ok result =>
    [("success".data, DVal.bool true), ("result".data, DVal.str result)]
  | .error e =>
    [("success".data, DVal.bool false), ("error".data, DVal.str e)]

/-- The `get_table_schema` tool handler. -/
def get_table_schema (db : SupabaseDatabase) (table_name : List Char) :
    List (List Char × DVal) :=
  match db.get_table_schema table_name with
  | .ok schema =>
    [("success".data, DVal.bool true),
     ("table_name".data, DVal.str table_name),
     ("columns".data, DVal.rows schema)]
  | .error e =>
    [("success".data, DVal.bool false), ("error".data, DVal.str e)]

/-- The `list_tables` tool handler. -/
def list_tables (db : SupabaseDatabase) : List (List Char × DVal) :=
  match db.list_tables with
  | .ok tables =>
    [("success".data, DVal.bool true), ("tables".data, DVal.strs tables)]
  | .error e =>
    [("success".data, DVal.bool false), ("error".data, DVal.str e)]

/-- The `fetch_table_data` tool handler: the statement interpolates the
table name directly into the query text, and passes the limit as the
single bound parameter. -/
def fetch_table_data (db : SupabaseDatabase) (table_name : List Char)
    (limit : Int) : List (List Char × DVal) :=
  let query := "SELECT * FROM ".data ++ table_name ++ " LIMIT $1".data
  match db.execute_query query [DVal.int limit] with
  | .ok results =>
    [("success".data, DVal.bool true),
     ("table_name".data, DVal.str table_name),
     ("row_count".data, DVal.nat results.length),
     ("data".data, DVal.rows results)]
  | .error e =>
    [("success".data, DVal.bool false), ("error".data, DVal.str e)]

/-- `fetch_table_data` with its default limit of 100 from the Python
signature. -/
def fetch_table_data_default (db : SupabaseDatabase)
    (table_name : List Char) : List (List Char × DVal) :=
  fetch_table_data db table_name 100

/-- Modelled from the spec: the uniform outcome envelope — a failing
operation yields \x7bsuccess: false, error: message\x7d and a succeeding
one \x7bsuccess: true, ...payload\x7d. -/
def envelopeOf (out : Except (List Char) (List (List Char × DVal))) :
    List (List Char × DVal) :=
  match out with
  | .ok payload => ("success".data, DVal.bool true) :: payload
  | .error e =>
    [("success".data, DVal.bool false), ("error".data, DVal.str e)]

example :
    execute_query ⟨none⟩ "SELECT 1".data =
      [("success".data, DVal.bool false),
       ("error".data, DVal.str "Database not connected".data)] := by decide

/-- A Python exception escaping `SupabaseDatabase.connect`: the int() port
parse raises ValueError, a driver connect failure is re-raised as
ConnectionError. -/
inductive PyErr where
  | connectionError (msg : List Char)
  | valueError (msg : List Char)
deriving DecidableEq

/-- Decimal digit accumulation for `pyIntParse`; `none` when a non-digit
appears. -/
def decDigits (l : List Char) : Option Nat :=
  l.foldl
    (fun acc c =>
      match acc with
      | none => none
      | some n => if c.isDigit then some (n * 10 + (c.toNat - 48)) else none)
    (some 0)

/-- Modelled from the environment: Python's `int()` on a decimal string —
surrounding whitespace is stripped, an optional single sign precedes the
digits, and at least one digit is required (digit-group underscores are
not modelled). -/
def pyIntParse (s : List Char) : Except (List Char) Int :=
  let bad : Except (List Char) Int :=
    .error ("invalid literal for int() with base 10: ".data ++ s)
  match pyStrip s with
  | '-' :: ds =>
    match decDigits ds, ds with
    | some n, _ :: _ => .ok (-(n : Int))
    | _, _ => bad
  | '+' :: ds =>
    match decDigits ds, ds with
    | some n, _ :: _ => .ok (n : Int)
    | _, _ => bad
  | ds =>
    match decDigits ds, ds with
    | some n, _ :: _ => .ok (n : Int)
    | _, _ => bad

/-- Fuel-driven decimal printer for naturals (the fuel bounds the number of
digits, so the recursion is structural and kernel-reducible). -/
def natReprAux : Nat → Nat → List Char
  | 0, _ => []
  | fuel + 1, n =>
    if n < 10 then [Char.ofNat (48 + n)]
    else natReprAux fuel (n / 10) ++ [Char.ofNat (48 + n % 10)]

/-- Modelled from the environment: Python's `str()` of an int, as used by
the f-string that renders the port. -/
def intRepr : Int → List Char
  | .ofNat n => natReprAux (n + 1) n
  | .negSucc n => '-' :: natReprAux (n + 2) (n + 1)

/-- `os.getenv(key, default)`: the variable's value when set (even if
empty), the default otherwise. -/
def envStr (env : List Char → Option (List Char)) (key dflt : List Char) :
    List Char :=
  (env key).getD dflt

/-- The connection URL computed inside `SupabaseDatabase.connect`: the
value of SUPABASE_DB_URL when that is set and non-empty (Python tests
`if not db_url`, so an empty string also falls through), otherwise the URL
assembled from the component variables with their defaults. -/
def buildDbUrl (env : List Char → Option (List Char)) :
    Except PyErr (List Char) :=
  let fallback : Except PyErr (List Char) :=
    let host := envStr env "SUPABASE_HOST".data "localhost".data
    match pyIntParse (envStr env "SUPABASE_PORT".data "5432".data) with
    | .error m => .error (PyErr.valueError m)
    | .ok port =>
      let database := envStr env "SUPABASE_DATABASE".data "postgres".data
      let user := envStr env "SUPABASE_USER".data "postgres".data
      let password := envStr env "SUPABASE_PASSWORD".data []
      .ok ("postgresql://".data ++ user ++ ":".data ++ password ++
        "@".data ++ host ++ ":".data ++ intRepr port ++ "/".data ++ database)
  match env "SUPABASE_DB_URL".data with
  | some u => if u = [] then fallback else .ok u
  | none => fallback

/-- `SupabaseDatabase.connect`: builds the URL, asks the driver (the
`tryConnect` oracle stands for `asyncpg.connect`) and either returns a
manager holding the live handle or fails fast, wrapping the driver failure
in a ConnectionError. -/
def SupabaseDatabase.connect (env : List Char → Option (List Char))
    (tryConnect : List Char → Except (List Char) DriverConn) :
    Except PyErr SupabaseDatabase :=
  match buildDbUrl env with
  | .error e => .error e
  | .ok url =>
    match tryConnect url with
    | .ok conn => .ok ⟨some conn⟩
    | .error e =>
      .error (PyErr.connectionError
        ("Failed to connect to Supabase database: ".data ++ e))

/-- A column of a modelled catalog table. -/
structure PgColumn where
  colName : List Char
  dataType : List Char
  isNullable : List Char
  colDefault : List Char
deriving DecidableEq

/-- A table of the modelled catalog. -/
structure PgTable where
  name : List Char
  cols : List PgColumn
deriving DecidableEq

/-- The row the catalog answers for one column, in the column order of the
source query's SELECT list. -/
def columnRow (c : PgColumn) : Row :=
  [("column_name".data, c.colName), ("data_type".data, c.dataType),
   ("is_nullable".data, c.isNullable), ("column_default".data, c.colDefault)]

/-- Modelled from the spec: a PostgreSQL backend answering the schema
catalog query — `information_schema.columns` holds one row per column of
each table whose name matches the bound parameter, in ordinal position
order, and an absent table simply contributes no rows (not an error). -/
def catalogFetch (tables : List PgTable) (q : List Char) (args : List DVal) :
    Except (List Char) (List Row) :=
  if q = schemaQuery then
    match args with
    | [DVal.str t] =>
      .ok (((tables.filter (fun tb => decide (tb.name = t))).map
        (fun tb => tb.cols.map columnRow)).flatten)
    | _ => .error "unexpected bind parameters".data
  else .error "query not modelled".data

/-- A live connection to the modelled catalog backend. -/
def catalogConn (tables : List PgTable) : DriverConn :=
  ⟨catalogFetch tables, fun _ => .error "commands not modelled".data⟩

theorem catalog_get_table_schema (tables : List PgTable) (name : List Char) :
    (SupabaseDatabase.mk (some (catalogConn tables))).get_table_schema name =
      .ok (((tables.filter (fun tb => decide (tb.name = name))).map
        (fun tb => tb.cols.map columnRow)).flatten) := by
  show SupabaseDatabase.execute_query _ schemaQuery [DVal.str name] = _
  simp [SupabaseDatabase.execute_query, catalogConn, catalogFetch]

example : pyIntParse "  5432 ".data = .ok 5432 := rfl
example : intRepr 5432 = "5432".data := by decide
example :
    buildDbUrl (fun _ => none) =
      .ok "postgresql://postgres:@localhost:5432/postgres".data := rfl

theorem envelope_match {α : Type} (out : Except (List Char) α)
    (payload : α → List (List Char × DVal)) :
    (match out with
     | .ok a => ("success".data, DVal.bool true) :: payload a
     | .error e =>
       [("success".data, DVal.bool false), ("error".data, DVal.str e)]) =
      envelopeOf (out.map payload) := by
  cases out <;> rfl

theorem execute_query_some (conn : DriverConn) (q : List Char)
    (args : List DVal) :
    SupabaseDatabase.execute_query ⟨some conn⟩ q args =
      match conn.fetch q args with
      | .ok rows => .ok rows
      | .error e => .error ("Query execution failed: ".data ++ e) := rfl

theorem fetch_table_data_match (db : SupabaseDatabase)
    (tableName : List Char) (limit : Int) :
    fetch_table_data db tableName limit =
      match db.execute_query
          ("SELECT * FROM ".data ++ tableName ++ " LIMIT $1".data)
          [DVal.int limit] with
      | .ok results =>
        [("success".data, DVal.bool true),
         ("table_name".data, DVal.str tableName),
         ("row_count".data, DVal.nat results.length),
         ("data".data, DVal.rows results)]
      | .error e =>
        [("success".data, DVal.bool false),
         ("error".data, DVal.str e)] := rfl

/-- C4: every database handler — run-query, run-command, describe-table,
list-tables and fetch-rows — is the uniform envelope of its underlying
operation's outcome: a failure becomes the structured dictionary
success=false with the error message instead of a propagated exception,
and a success becomes success=true followed by the handler's payload. -/
theorem claim_C4_handler_envelopes (db : SupabaseDatabase)
    (query command tableName : List Char) (limit : Int) :
    execute_query db query =
      envelopeOf ((db.execute_query query []).map fun results =>
        [("row_count".data, DVal.nat results.length),
         ("data".data, DVal.rows results)]) ∧
    execute_command db command =
      envelopeOf ((db.execute_command command).map fun result =>
        [("result".data, DVal.str result)]) ∧
    get_table_schema db tableName =
      envelopeOf ((db.get_table_schema tableName).map fun schema =>
        [("table_name".data, DVal.str tableName),
         ("columns".data, DVal.rows schema)]) ∧
    list_tables db =
      envelopeOf (db.list_tables.map fun tables =>
        [("tables".data, DVal.strs tables)]) ∧
    fetch_table_data db tableName limit =
      envelopeOf ((db.execute_query
          ("SELECT * FROM ".data ++ tableName ++ " LIMIT $1".data)
          [DVal.int limit]).map fun results =>
        [("table_name".data, DVal.str tableName),
         ("row_count".data, DVal.nat results.length),
         ("data".data, DVal.rows results)]) := by
  refine ⟨?_, ?_, ?_, ?_, ?_⟩
  · cases h : db.execute_query query [] with
    | ok r => simp [execute_query, envelopeOf, h, Except.map]
    | error e => simp [execute_query, envelopeOf, h, Except.map]
  · cases h : db.execute_command command with
    | ok r => simp [execute_command, envelopeOf, h, Except.map]
    | error e => simp [execute_command, envelopeOf, h, Except.map]
  · cases h : db.get_table_schema tableName with
    | ok r => simp [get_table_schema, envelopeOf, h, Except.map]
    | error e => simp [get_table_schema, envelopeOf, h, Except.map]
  · cases h : db.list_tables with
    | ok r => simp [list_tables, envelopeOf, h, Except.map]
    | error e => simp [list_tables, envelopeOf, h, Except.map]
  · rw [fetch_table_data_match]
    cases db.execute_query
      ("SELECT * FROM ".data ++ tableName ++ " LIMIT $1".data)
      [DVal.int limit] <;> rfl

/-- C5: `fetch_table_data` hands the driver the statement built by direct
string interpolation of the table name (no identifier quoting or escaping)
with the limit as the single bound parameter; the limit defaults to 100;
and with limit 100 and no rows it returns success=true with row_count 0
and an empty data sequence. -/
theorem claim_C5_fetch_table_data (conn : DriverConn)
    (db : SupabaseDatabase) (tableName : List Char) (limit : Int) :
    (fetch_table_data ⟨some conn⟩ tableName limit =
      match conn.fetch
          ("SELECT * FROM ".data ++ tableName ++ " LIMIT $1".data)
          [DVal.int limit] with
      | .ok results =>
        [("success".data, DVal.bool true),
         ("table_name".data, DVal.str tableName),
         ("row_count".data, DVal.nat results.length),
         ("data".data, DVal.rows results)]
      | .error e =>
        [("success".data, DVal.bool false),
         ("error".data,
          DVal.str ("Query execution failed: ".data ++ e))]) ∧
    fetch_table_data_default db tableName =
      fetch_table_data db tableName 100 ∧
    (conn.fetch ("SELECT * FROM ".data ++ tableName ++ " LIMIT $1".data)
        [DVal.int 100] = .ok [] →
      fetch_table_data ⟨some conn⟩ tableName 100 =
        [("success".data, DVal.bool true),
         ("table_name".data, DVal.str tableName),
         ("row_count".data, DVal.nat 0),
         ("data".data, DVal.rows [])]) := by
  refine ⟨?_, rfl, fun h => ?_⟩
  · rw [fetch_table_data_match, execute_query_some]
    cases conn.fetch
      ("SELECT * FROM ".data ++ tableName ++ " LIMIT $1".data)
      [DVal.int limit] <;> rfl
  · rw [fetch_table_data_match, execute_query_some, h]
    rfl

theorem claim_C5_witness :
    fetch_table_data
        ⟨some ⟨fun _ _ => .ok [], fun _ => .error []⟩⟩ "users".data 100 =
      [("success".data, DVal.bool true),
       ("table_name".data, DVal.str "users".data),
       ("row_count".data, DVal.nat 0),
       ("data".data, DVal.rows [])] :=
  (claim_C5_fetch_table_data ⟨fun _ _ => .ok [], fun _ => .error []⟩
    ⟨none⟩ "users".data 100).2.2 rfl

/-- C6 counterexample: with SUPABASE_DB_URL set to the empty string — set,
but falsy for Python's `if not db_url` — the URL is not taken from
SUPABASE_DB_URL: the fallback URL assembled from the component defaults is
used instead. -/
theorem claim_C6_counterexample :
    (fun k => if k = "SUPABASE_DB_URL".data then some [] else none)
        "SUPABASE_DB_URL".data = some ([] : List Char) ∧
    buildDbUrl
        (fun k => if k = "SUPABASE_DB_URL".data then some [] else none) =
      .ok "postgresql://postgres:@localhost:5432/postgres".data ∧
    "postgresql://postgres:@localhost:5432/postgres".data ≠
      ([] : List Char) :=
  ⟨rfl, rfl, by decide⟩

/-- C6 (amended): the connection URL is taken from SUPABASE_DB_URL when
that variable is set to a non-empty string; when it is unset or set to the
empty string the URL is assembled from SUPABASE_USER (default "postgres"),
SUPABASE_PASSWORD (default empty), SUPABASE_HOST (default "localhost"),
SUPABASE_PORT (default 5432) and SUPABASE_DATABASE (default "postgres");
and when the driver cannot connect with the resulting URL, startup fails
fast with a ConnectionError wrapping the driver message. -/
theorem claim_C6_connect_amended (env : List Char → Option (List Char))
    (tryConnect : List Char → Except (List Char) DriverConn) :
    (∀ u, env "SUPABASE_DB_URL".data = some u → u ≠ [] →
      buildDbUrl env = .ok u) ∧
    ((env "SUPABASE_DB_URL".data = none ∨
        env "SUPABASE_DB_URL".data = some []) →
      ∀ p, pyIntParse (envStr env "SUPABASE_PORT".data "5432".data) =
          .ok p →
        buildDbUrl env =
          .ok ("postgresql://".data ++
            envStr env "SUPABASE_USER".data "postgres".data ++ ":".data ++
            envStr env "SUPABASE_PASSWORD".data [] ++ "@".data ++
            envStr env "SUPABASE_HOST".data "localhost".data ++ ":".data ++
            intRepr p ++ "/".data ++
            envStr env "SUPABASE_DATABASE".data "postgres".data)) ∧
    (∀ url e, buildDbUrl env = .ok url → tryConnect url = .error e →
      SupabaseDatabase.connect env tryConnect =
        .error (PyErr.connectionError
          ("Failed to connect to Supabase database: ".data ++ e))) := by
  refine ⟨?_, ?_, ?_⟩
  · intro u hu hne
    simp [buildDbUrl, hu, hne]
  · rintro (h | h) p hp
    · simp [buildDbUrl, h, hp]
    · simp [buildDbUrl, h, hp]
  · intro url e hurl htc
    simp [SupabaseDatabase.connect, hurl, htc]

theorem claim_C6_witness :
    buildDbUrl (fun k => if k = "SUPABASE_DB_URL".data
        then some "postgres://direct".data else none) =
      .ok "postgres://direct".data ∧
    buildDbUrl (fun _ => none) =
      .ok "postgresql://postgres:@localhost:5432/postgres".data ∧
    SupabaseDatabase.connect (fun _ => none)
        (fun _ => .error "refused".data) =
      .error (PyErr.connectionError
        ("Failed to connect to Supabase database: ".data ++
          "refused".data)) := by
  refine ⟨?_, ?_, ?_⟩
  · exact (claim_C6_connect_amended
      (fun k => if k = "SUPABASE_DB_URL".data
        then some "postgres://direct".data else none)
      (fun _ => .error "refused".data)).1 "postgres://direct".data rfl
      (by decide)
  · have h := (claim_C6_connect_amended (fun _ => none)
      (fun _ => .error "refused".data)).2.1 (Or.inl rfl) 5432 rfl
    rw [h]
    rfl
  · exact (claim_C6_connect_amended (fun _ => none)
      (fun _ => .error "refused".data)).2.2
      "postgresql://postgres:@localhost:5432/postgres".data
      "refused".data rfl rfl

/-- C8: `get_table_schema` against a backend answering the catalog query
returns success=true with an empty column list when the named table does
not exist (not an error); when exactly one table of that name exists it
returns success=true and, per column, its name, declared type, nullability
and default from the catalog metadata. -/
theorem claim_C8_describe_table (tables : List PgTable) (name : List Char) :
    (name ∉ tables.map PgTable.name →
      get_table_schema ⟨some (catalogConn tables)⟩ name =
        [("success".data, DVal.bool true),
         ("table_name".data, DVal.str name),
         ("columns".data, DVal.rows [])]) ∧
    (∀ t, tables.filter (fun tb => decide (tb.name = name)) = [t] →
      get_table_schema ⟨some (catalogConn tables)⟩ name =
        [("success".data, DVal.bool true),
         ("table_name".data, DVal.str name),
         ("columns".data, DVal.rows (t.cols.map columnRow))]) := by
  constructor
  · intro h
    have hf : tables.filter (fun tb => decide (tb.name = name)) = [] := by
      apply List.filter_eq_nil_iff.2
      intro tb htb
      simp only [decide_eq_true_eq]
      intro heq
      exact h (heq ▸ List.mem_map_of_mem PgTable.name htb)
    have hq : (SupabaseDatabase.mk
        (some (catalogConn tables))).get_table_schema name = .ok [] := by
      rw [catalog_get_table_schema, hf]
      rfl
    simp [get_table_schema, hq]
  · intro t hf
    have hq : (SupabaseDatabase.mk
        (some (catalogConn tables))).get_table_schema name =
        .ok (t.cols.map columnRow) := by
      rw [catalog_get_table_schema, hf]
      simp
    simp [get_table_schema, hq]

theorem claim_C8_witness :
    get_table_schema
        ⟨some (catalogConn
          [⟨"users".data,
            [⟨"id".data, "integer".data, "NO".data, "".data⟩]⟩])⟩
        "ghost".data =
      [("success".data, DVal.bool true),
       ("table_name".data, DVal.str "ghost".data),
       ("columns".data, DVal.rows [])] ∧
    get_table_schema
        ⟨some (catalogConn
          [⟨"users".data,
            [⟨"id".data, "integer".data, "NO".data, "".data⟩]⟩])⟩
        "users".data =
      [("success".data, DVal.bool true),
       ("table_name".data, DVal.str "users".data),
       ("columns".data,
        DVal.rows [[("column_name".data, "id".data),
          ("data_type".data, "integer".data),
          ("is_nullable".data, "NO".data),
          ("column_default".data, "".data)]])] := by
  constructor
  · exact (claim_C8_describe_table
      [⟨"users".data, [⟨"id".data, "integer".data, "NO".data, "".data⟩]⟩]
      "ghost".data).1 (by decide)
  · exact (claim_C8_describe_table
      [⟨"users".data, [⟨"id".data, "integer".data, "NO".data, "".data⟩]⟩]
      "users".data).2
      ⟨"users".data, [⟨"id".data, "integer".data, "NO".data, "".data⟩]⟩
      (by decide)
example : readlines "\n\n".data = ["\n".data, "\n".data] := by decide
example : pyStrip "  a b \t\n".data = "a b".data := by decide
example :
    (delete_note "a".data (some "a\nb\n a \n".data)).2 = "b\n".data := by
  decide
example :
    (modify_note "a".data "c".data (some "a\nb\na\n".data)).2 =
      "c\nb\nc\n".data := by decide
example : (read_notes (some "Buy milk\n".data)).1 = "Buy milk".data := by
  decide
